import Mathlib

/-!
Verification development for the per-guild music playback bot (src/bot.py).

The playback state machine, clock/position model, registry and message
handler are shallowly embedded: each Python method becomes a pure Lean
function on an explicit state record.  Wall-clock instants and durations
(datetime values and total_seconds results in the source) are modelled as
exact rationals; Python lists become Lean lists with the same mutation
order; a fallible external call (message edit/send, followup) is modelled
by an explicit outcome supplied as input.
-/

/-- State of the per-guild player, one field per attribute initialised in
GuildPlayer.__init__ (src/bot.py lines 192-206).  The guild handle itself
is identity only and is kept outside the state; message references are
modelled as numeric ids. -/
structure GuildPlayer where
  queue : List String
  playbackHistory : List String
  loopMode : Nat
  currentTrackUrl : Option String
  playerMessage : Option Nat
  currentTrackInfo : Option String
  startTime : Option ℚ
  lastUpdate : Option ℚ
  pauseTime : Option ℚ
  totalPausedTime : ℚ
  isPaused : Bool
  lastPosition : ℚ
  positionUpdateTime : Option ℚ
deriving DecidableEq

/-- The freshly constructed GuildPlayer (src/bot.py lines 192-206). -/
def initPlayer : GuildPlayer :=
  { queue := []
    playbackHistory := []
    loopMode := 0
    currentTrackUrl := none
    playerMessage := none
    currentTrackInfo := none
    startTime := none
    lastUpdate := none
    pauseTime := none
    totalPausedTime := 0
    isPaused := false
    lastPosition := 0
    positionUpdateTime := none }

/-- GuildPlayer.get_elapsed_time (src/bot.py lines 208-236).
livePos models the voice client: none when there is no voice client or it
is not playing; some v when it is playing and its source reports position
v (v = 0 when the source lacks a position attribute).  The function both
returns the elapsed time and (in the live branch) records the sample, so
it returns the value together with the updated state. -/
def getElapsedTime (p : GuildPlayer) (livePos : Option ℚ) (now : ℚ) :
    ℚ × GuildPlayer :=
  match p.startTime with
  | none => (0, p)
  | some st =>
    let live : Option ℚ :=
      match livePos with
      | some pos => if 0 < pos then some pos else none
      | none => none
    match live with
    | some pos =>
        (pos, { p with lastPosition := pos, positionUpdateTime := some now })
    | none =>
      let elapsed : ℚ :=
        match p.pauseTime, p.isPaused with
        | some pt, true => (pt - st) - p.totalPausedTime
        | _, _ => (now - st) - p.totalPausedTime
      let elapsed2 : ℚ :=
        match p.positionUpdateTime with
        | some put => if now - put < 5 then max elapsed p.lastPosition else elapsed
        | none => elapsed
      (max 0 elapsed2, p)

/-- GuildPlayer.pause (src/bot.py lines 238-242). -/
def pause (p : GuildPlayer) (now : ℚ) : GuildPlayer :=
  if p.isPaused then p
  else { p with pauseTime := some now, isPaused := true }

/-- GuildPlayer.resume (src/bot.py lines 244-250): acts only when both
is_paused and pause_time are set, mirroring the conjunction in the source. -/
def resume (p : GuildPlayer) (now : ℚ) : GuildPlayer :=
  match p.pauseTime, p.isPaused with
  | some pt, true =>
      { p with totalPausedTime := p.totalPausedTime + (now - pt)
               pauseTime := none
               isPaused := false }
  | _, _ => p

/-- The state reset performed at the start of play_track for the track
being loaded (src/bot.py lines 584-610): the old panel message reference
is dropped, the track becomes current and the clock fields are reset. -/
def playTrackStart (p : GuildPlayer) (url : String) (now : ℚ) : GuildPlayer :=
  { p with playerMessage := none
           currentTrackUrl := some url
           currentTrackInfo := none
           startTime := some now
           lastUpdate := none
           pauseTime := none
           totalPausedTime := 0
           isPaused := false
           lastPosition := 0
           positionUpdateTime := none }

/-- The history update in play_track after successful extraction
(src/bot.py lines 797-800): append only when the url is not already
present anywhere in the history. -/
def appendHistory (p : GuildPlayer) (url : String) : GuildPlayer :=
  if url ∈ p.playbackHistory then p
  else { p with playbackHistory := p.playbackHistory ++ [url] }

/-- The loop-mode handling at the top of play_next (src/bot.py lines
517-524): the queue after reinserting the just-finished track. -/
def loopReinsert (p : GuildPlayer) : List String :=
  match p.currentTrackUrl with
  | some cur =>
      if p.loopMode = 1 then cur :: p.queue
      else if p.loopMode = 2 then p.queue ++ [cur]
      else p.queue
  | none => p.queue

/-- play_next (src/bot.py lines 507-549): reinsert the just-finished
track according to loop mode, clear the current track, then pop the queue
head (if any) and load it via the play_track state reset. -/
def playNext (p : GuildPlayer) (now : ℚ) : GuildPlayer :=
  match loopReinsert p with
  | next :: rest =>
      playTrackStart
        { p with currentTrackUrl := none, currentTrackInfo := none, queue := rest }
        next now
  | [] => { p with currentTrackUrl := none, currentTrackInfo := none, queue := [] }

/-- loop_button (src/bot.py lines 348-364): the only mutation of
loop_mode in the source besides its initialisation. -/
def loopButton (p : GuildPlayer) : GuildPlayer :=
  { p with loopMode := (p.loopMode + 1) % 3 }

/-- previous_button (src/bot.py lines 290-310).  hasVoice models the
presence of a guild voice client (it gates only the stop call and the
reply text, not the mutations, exactly as in the source).  Python pops
from the end of the list, so the history is matched through its reverse. -/
def previousButton (p : GuildPlayer) (hasVoice : Bool) : GuildPlayer × String :=
  match p.playbackHistory.reverse with
  | _last :: prev :: restRev =>
    let q1 : List String :=
      match p.currentTrackUrl with
      | some cur => cur :: p.queue
      | none => p.queue
    let p2 := { p with queue := prev :: q1, playbackHistory := restRev.reverse }
    if hasVoice then (p2, "⏮️ Playing previous track.")
    else (p2, "❌ Not connected to voice channel.")
  | _ => (p, "❌ No previous track in history.")

/-- The routing decision of play_command once a result has been resolved
(src/bot.py lines 1303-1333): if there is no voice client or it is not
playing, play_track is invoked for the url (resetting the player state
for that track); otherwise the url is appended to the queue tail. -/
def playCommandStep (p : GuildPlayer) (hasVoice isPlaying : Bool)
    (url : String) (now : ℚ) : GuildPlayer :=
  if hasVoice && isPlaying then { p with queue := p.queue ++ [url] }
  else playTrackStart p url now

/-- The global players dict (src/bot.py line 253) modelled as an
association list from guild id to player state. -/
abbrev Registry := List (Nat × GuildPlayer)

/-- Dictionary lookup players.get(gid). -/
def lookupPlayer (reg : Registry) (gid : Nat) : Option GuildPlayer :=
  (reg.find? (fun e => e.1 == gid)).map Prod.snd

/-- In-place replacement of the entry for gid. -/
def setPlayer (reg : Registry) (gid : Nat) (p : GuildPlayer) : Registry :=
  reg.map (fun e => if e.1 == gid then (gid, p) else e)

/-- players.pop(gid, None) (src/bot.py line 379). -/
def removePlayer (reg : Registry) (gid : Nat) : Registry :=
  reg.filter (fun e => e.1 != gid)

/-- get_player (src/bot.py lines 255-259): look up, creating on demand. -/
def getPlayer (reg : Registry) (gid : Nat) : GuildPlayer × Registry :=
  match lookupPlayer reg gid with
  | some p => (p, reg)
  | none => (initPlayer, (gid, initPlayer) :: reg)

/-- stop_button (src/bot.py lines 366-382).  With a voice client: the
queue is cleared in place, the voice stream is stopped and disconnected,
the panel message is deleted when present, and the player is removed from
the registry.  Returns the new registry, whether a panel deletion was
performed, and the reply text. -/
def stopButton (reg : Registry) (gid : Nat) (hasVoice : Bool) :
    Registry × Bool × String :=
  let pr := getPlayer reg gid
  if hasVoice then
    let reg2 := setPlayer pr.2 gid { pr.1 with queue := [] }
    (removePlayer reg2 gid, pr.1.playerMessage.isSome,
      "🛑 Playback stopped and queue cleared.")
  else (pr.2, false, "❌ Not connected to a voice channel.")

/-- Outcome of an external edit or followup call. -/
inductive CallOutcome
  | ok
  | notFound
  | err
deriving DecidableEq

/-- One outcome per external call site inside MessageHandler.send
(src/bot.py lines 1064-1130).  A channel.send site yields some id on
success and none when the call raises. -/
structure SendWorld where
  editThinking : CallOutcome
  editMessage : CallOutcome
  sendAfterEditNF : Option Nat
  followup : CallOutcome
  sendAfterFollowupNF : Option Nat
  sendAfterFollowupErr : Option Nat
  sendInitial : Option Nat
  sendRecovery : Option Nat
deriving DecidableEq

/-- State of MessageHandler (src/bot.py lines 1026-1036); message
references are numeric ids and the log keeps abbreviated entries (the
dynamic payloads of the source's f-strings are elided). -/
structure MessageHandler where
  message : Option Nat
  initialized : Bool
  thinkingMessage : Option Nat
  lastSendAttempt : Option String
  lastSendError : Bool
  messageHistory : List String
deriving DecidableEq

/-- _log_message (src/bot.py lines 1038-1042). -/
def logMsg (h : MessageHandler) (s : String) : MessageHandler :=
  { h with messageHistory := h.messageHistory ++ [s] }

/-- The branch of send taken once the thinking message has been handled:
edit the existing message (NotFound falls back to a fresh channel
message), else followup when initialized, else a first channel message
(src/bot.py lines 1087-1117).  An error value carries the handler state
at the moment the exception escapes to the outer handler. -/
def sendAfterThinking (h : MessageHandler) (w : SendWorld) :
    Except MessageHandler MessageHandler :=
  match h.message with
  | some _ =>
    match w.editMessage with
    | CallOutcome.ok => Except.ok (logMsg h "Send Success Message updated")
    | CallOutcome.notFound =>
      match w.sendAfterEditNF with
      | some i =>
          Except.ok { logMsg h "Send Success New message created" with message := some i }
      | none => Except.error (logMsg h "Send Failed Message not found")
    | CallOutcome.err => Except.error h
  | none =>
    if h.initialized then
      match w.followup with
      | CallOutcome.ok => Except.ok (logMsg h "Send Success Followup sent")
      | CallOutcome.notFound =>
        match w.sendAfterFollowupNF with
        | some i => Except.ok { h with message := some i }
        | none => Except.error h
      | CallOutcome.err =>
        let h1 := { h with lastSendError := true }
        match w.sendAfterFollowupErr with
        | some i => Except.ok { h1 with message := some i }
        | none => Except.error h1
    else
      match w.sendInitial with
      | some i =>
          Except.ok { h with message := some i, initialized := true }
      | none => Except.error h

/-- The body of the outer try of send: record the attempt, substitute a
default for blank content, then try the thinking message first (any edit
failure clears it and falls through, src/bot.py lines 1066-1117). -/
def sendCore (h0 : MessageHandler) (w : SendWorld) (content : String) :
    Except MessageHandler MessageHandler :=
  let h := { h0 with lastSendAttempt := some content }
  match h.thinkingMessage with
  | some t =>
    match w.editThinking with
    | CallOutcome.ok =>
        Except.ok { logMsg h "Send Success Thinking message updated" with
                      message := some t }
    | CallOutcome.notFound =>
        sendAfterThinking
          (logMsg { h with thinkingMessage := none } "Send Failed Thinking message not found") w
    | CallOutcome.err =>
        sendAfterThinking { h with thinkingMessage := none } w
  | none => sendAfterThinking h w

/-- The outer except handler of send (src/bot.py lines 1118-1130): record
the error, and when no message reference remains try one recovery channel
message, itself guarded so that a failure is only logged. -/
def outerRecover (h : MessageHandler) (w : SendWorld) : MessageHandler :=
  let h1 := logMsg { h with lastSendError := true } "Send Error Unexpected error"
  if h1.message.isNone then
    match w.sendRecovery with
    | some i =>
        logMsg { h1 with message := some i, initialized := true }
          "Send Recovery Sent new message after error"
    | none => logMsg h1 "Send Critical Failed to send message"
  else h1

/-- send as seen by the caller: the outer try/except around sendCore.  An
error result would mean an exception escaping to the caller. -/
def sendExcept (h : MessageHandler) (w : SendWorld) (content : String) :
    Except MessageHandler MessageHandler :=
  match sendCore h w content with
  | Except.ok h1 => Except.ok h1
  | Except.error h1 => Except.ok (outerRecover h1 w)

/-- MessageHandler.send as a total state transformer. -/
def send (h : MessageHandler) (w : SendWorld) (content : String) :
    MessageHandler :=
  match sendExcept h w content with
  | Except.ok h1 => h1
  | Except.error h1 => h1

/-- A pause or resume call on the clock. -/
inductive ClockOp
  | pauseOp
  | resumeOp
deriving DecidableEq

/-- Apply one timed clock operation. -/
def applyClockOp (p : GuildPlayer) (op : ClockOp) (t : ℚ) : GuildPlayer :=
  match op with
  | ClockOp.pauseOp => pause p t
  | ClockOp.resumeOp => resume p t

/-- Elapsed time observed at query time t, given a time-sorted list of
pending pause/resume events: events no later than t are applied first,
then get_elapsed_time is read in the resulting state (with no live voice
position, the pure clock path). -/
def elapsedAt (p : GuildPlayer) : List (ℚ × ClockOp) → ℚ → ℚ
  | [], t => (getElapsedTime p none t).1
  | (u, op) :: rest, t =>
    if u ≤ t then elapsedAt (applyClockOp p op u) rest t
    else (getElapsedTime p none t).1

/-- A trace of timed clock operations whose times are nondecreasing and
bounded below by the given instant. -/
inductive ValidTrace : ℚ → List (ℚ × ClockOp) → Prop
  | nil (t : ℚ) : ValidTrace t []
  | cons {t u : ℚ} {op : ClockOp} {rest : List (ℚ × ClockOp)}
      (h : t ≤ u) (hr : ValidTrace u rest) :
      ValidTrace t ((u, op) :: rest)

/-- Player states reachable from the constructor through the modelled
operations of the source (pause/resume, loop button, track loading and
advancing, history bookkeeping, the previous button, the play command
routing, the stop button's in-place queue clear, and the elapsed-time
read which may record a position sample). -/
inductive Reachable : GuildPlayer → Prop
  | init : Reachable initPlayer
  | pauseStep {p : GuildPlayer} (t : ℚ) : Reachable p → Reachable (pause p t)
  | resumeStep {p : GuildPlayer} (t : ℚ) : Reachable p → Reachable (resume p t)
  | loopStep {p : GuildPlayer} : Reachable p → Reachable (loopButton p)
  | advanceStep {p : GuildPlayer} (t : ℚ) : Reachable p → Reachable (playNext p t)
  | loadStep {p : GuildPlayer} (url : String) (t : ℚ) :
      Reachable p → Reachable (playTrackStart p url t)
  | historyStep {p : GuildPlayer} (url : String) :
      Reachable p → Reachable (appendHistory p url)
  | prevStep {p : GuildPlayer} (v : Bool) :
      Reachable p → Reachable (previousButton p v).1
  | playCmdStep {p : GuildPlayer} (hv ip : Bool) (url : String) (t : ℚ) :
      Reachable p → Reachable (playCommandStep p hv ip url t)
  | stopClearStep {p : GuildPlayer} :
      Reachable p → Reachable { p with queue := [] }
  | elapsedStep {p : GuildPlayer} (livePos : Option ℚ) (t : ℚ) :
      Reachable p → Reachable (getElapsedTime p livePos t).2

/-- Modelled from the claim's words for C2 (spec section 4.1), for
comparison with getElapsedTime: with startedAt set, if a position sample
exists and is less than 5 seconds old, the larger of the time-based
estimate and the sample; otherwise the pause-aware estimate floored at 0. -/
def specC2Elapsed (p : GuildPlayer) (now : ℚ) : ℚ :=
  match p.startTime with
  | none => 0
  | some st =>
    let est : ℚ := (p.pauseTime.getD now) - st - p.totalPausedTime
    match p.positionUpdateTime with
    | some put => if now - put < 5 then max est p.lastPosition else max 0 est
    | none => max 0 est

/-- The clock-field wellformedness maintained by the source between a
track start and the next reset: a start instant exists, no position
sample has been recorded, and the paused flag agrees with pause_time. -/
def ClockGood (p : GuildPlayer) : Prop :=
  p.startTime.isSome = true ∧ p.positionUpdateTime = none
    ∧ p.isPaused = p.pauseTime.isSome

/-- The pause-aware wall-clock estimate of get_elapsed_time before the
flooring at 0: (pause instant, or the query instant) minus start minus
accumulated pause time. -/
def vElapsed (p : GuildPlayer) (t : ℚ) : ℚ :=
  (p.pauseTime.getD t) - (p.startTime.getD 0) - p.totalPausedTime

/-- Concrete state used as a witness input: track A playing, one queued. -/
def exAdvance : GuildPlayer :=
  { initPlayer with currentTrackUrl := some "A", queue := ["B"] }

/-- Concrete state used as a witness input: track A playing, two queued. -/
def exDouble : GuildPlayer :=
  { initPlayer with currentTrackUrl := some "A", queue := ["B", "C"] }

/-- Concrete state used as a witness input: track A loaded and paused. -/
def exPaused : GuildPlayer :=
  { initPlayer with currentTrackUrl := some "A", startTime := some 0,
                    pauseTime := some 1, isPaused := true }

/-- Concrete state used as a witness input: a freshly started clock. -/
def exClock : GuildPlayer :=
  { initPlayer with startTime := some 0 }

/-- Concrete state used as a witness input: a single history entry. -/
def exPrev : GuildPlayer :=
  { initPlayer with playbackHistory := ["x"], queue := ["q"],
                    currentTrackUrl := some "c" }

/-- Concrete state used as a witness input: session with queue [A, B],
current track C and a live panel message. -/
def exStopPlayer : GuildPlayer :=
  { initPlayer with queue := ["A", "B"], currentTrackUrl := some "C",
                    playerMessage := some 7 }

/-- Concrete registry used as a witness input. -/
def exStopReg : Registry := [(1, exStopPlayer)]

/-- Concrete handler state used as a counterexample input: initialized,
with no primary message reference of either kind. -/
def exHandlerNoPrimary : MessageHandler :=
  { message := none, initialized := true, thinkingMessage := none,
    lastSendAttempt := none, lastSendError := false, messageHistory := [] }

/-- A world in which every external call succeeds. -/
def exWorldAllOk : SendWorld :=
  { editThinking := CallOutcome.ok, editMessage := CallOutcome.ok,
    sendAfterEditNF := some 1, followup := CallOutcome.ok,
    sendAfterFollowupNF := some 3, sendAfterFollowupErr := some 4,
    sendInitial := some 5, sendRecovery := some 6 }

/-- Removing a guild from the registry makes its lookup fail. -/
theorem lookupPlayer_removePlayer (reg : Registry) (gid : Nat) :
    lookupPlayer (removePlayer reg gid) gid = none := by
  induction reg with
  | nil => rfl
  | cons a tl ih =>
    by_cases h : a.1 = gid
    · simp only [removePlayer, lookupPlayer, List.filter_cons] at ih ⊢
      simp [h, ih]
    · simp only [removePlayer, lookupPlayer, List.filter_cons] at ih ⊢
      simp [List.find?, h, ih]

theorem playNext_field_aux (p : GuildPlayer) (t : ℚ) :
    (playNext p t).loopMode = p.loopMode
    ∧ (playNext p t).playbackHistory = p.playbackHistory := by
  rcases hq : loopReinsert p with _ | ⟨a, rest⟩ <;>
    simp [playNext, hq, playTrackStart]

/-- Looking up a missing guild makes get_player return a fresh state. -/
theorem getPlayer_of_lookup_none {reg : Registry} {gid : Nat}
    (h : lookupPlayer reg gid = none) : (getPlayer reg gid).1 = initPlayer := by
  simp [getPlayer, h]

theorem pause_loopMode (p : GuildPlayer) (t : ℚ) :
    (pause p t).loopMode = p.loopMode := by
  unfold pause; split <;> rfl

theorem pause_history (p : GuildPlayer) (t : ℚ) :
    (pause p t).playbackHistory = p.playbackHistory := by
  unfold pause; split <;> rfl

theorem resume_loopMode (p : GuildPlayer) (t : ℚ) :
    (resume p t).loopMode = p.loopMode := by
  unfold resume; split <;> rfl

theorem resume_history (p : GuildPlayer) (t : ℚ) :
    (resume p t).playbackHistory = p.playbackHistory := by
  unfold resume; split <;> rfl

theorem playTrackStart_loopMode (p : GuildPlayer) (url : String) (t : ℚ) :
    (playTrackStart p url t).loopMode = p.loopMode := rfl

theorem playTrackStart_history (p : GuildPlayer) (url : String) (t : ℚ) :
    (playTrackStart p url t).playbackHistory = p.playbackHistory := rfl

theorem playNext_loopMode (p : GuildPlayer) (t : ℚ) :
    (playNext p t).loopMode = p.loopMode :=
  (playNext_field_aux p t).1

theorem playNext_history (p : GuildPlayer) (t : ℚ) :
    (playNext p t).playbackHistory = p.playbackHistory :=
  (playNext_field_aux p t).2

theorem appendHistory_loopMode (p : GuildPlayer) (url : String) :
    (appendHistory p url).loopMode = p.loopMode := by
  unfold appendHistory; split <;> rfl

theorem previousButton_loopMode (p : GuildPlayer) (v : Bool) :
    (previousButton p v).1.loopMode = p.loopMode := by
  unfold previousButton; split
  · cases v <;> rfl
  · rfl

theorem playCommandStep_loopMode (p : GuildPlayer) (hv ip : Bool)
    (url : String) (t : ℚ) :
    (playCommandStep p hv ip url t).loopMode = p.loopMode := by
  unfold playCommandStep; split <;> rfl

theorem playCommandStep_history (p : GuildPlayer) (hv ip : Bool)
    (url : String) (t : ℚ) :
    (playCommandStep p hv ip url t).playbackHistory = p.playbackHistory := by
  unfold playCommandStep; split <;> rfl

theorem getElapsedTime_field_aux (p : GuildPlayer) (livePos : Option ℚ) (t : ℚ) :
    (getElapsedTime p livePos t).2.loopMode = p.loopMode
    ∧ (getElapsedTime p livePos t).2.playbackHistory = p.playbackHistory := by
  rcases hst : p.startTime with _ | st
  · simp [getElapsedTime, hst]
  · rcases livePos with _ | pos
    · simp [getElapsedTime, hst]
    · by_cases hp : (0 : ℚ) < pos <;> simp [getElapsedTime, hst, hp]

theorem getElapsedTime_loopMode (p : GuildPlayer) (livePos : Option ℚ) (t : ℚ) :
    (getElapsedTime p livePos t).2.loopMode = p.loopMode :=
  (getElapsedTime_field_aux p livePos t).1

theorem getElapsedTime_history (p : GuildPlayer) (livePos : Option ℚ) (t : ℚ) :
    (getElapsedTime p livePos t).2.playbackHistory = p.playbackHistory :=
  (getElapsedTime_field_aux p livePos t).2

/-- The previous button only ever shortens the history from its end. -/
theorem previousButton_history_sublist (p : GuildPlayer) (v : Bool) :
    (previousButton p v).1.playbackHistory.Sublist p.playbackHistory := by
  rcases hrev : p.playbackHistory.reverse with _ | ⟨last, _ | ⟨prev, restRev⟩⟩
  · simp [previousButton, hrev]
  · simp [previousButton, hrev]
  · have hp : p.playbackHistory = (restRev.reverse ++ [prev]) ++ [last] := by
      have h2 := congrArg List.reverse hrev
      simpa [List.reverse_cons] using h2
    have hs : restRev.reverse.Sublist p.playbackHistory := by
      rw [hp]
      exact (List.sublist_append_left _ _).trans (List.sublist_append_left _ _)
    unfold previousButton
    rw [hrev]
    cases v <;> simpa using hs

/-- On a wellformed clock with no live voice position, get_elapsed_time
computes the pause-aware estimate floored at 0. -/
theorem clockGood_elapsed {p : GuildPlayer} (hg : ClockGood p) (t : ℚ) :
    (getElapsedTime p none t).1 = max 0 (vElapsed p t) := by
  obtain ⟨h1, h2, h3⟩ := hg
  rcases hst : p.startTime with _ | st
  · rw [hst] at h1; simp at h1
  · rcases hpt : p.pauseTime with _ | pt
    · have hb : p.isPaused = false := by rw [h3, hpt]; rfl
      simp [getElapsedTime, hst, hpt, h2, hb, vElapsed]
    · have hb : p.isPaused = true := by rw [h3, hpt]; rfl
      simp [getElapsedTime, hst, hpt, h2, hb, vElapsed]

/-- For a fixed clock state the pause-aware estimate is monotone in the
query time. -/
theorem vElapsed_mono (p : GuildPlayer) {t1 t2 : ℚ} (h : t1 ≤ t2) :
    vElapsed p t1 ≤ vElapsed p t2 := by
  rcases hpt : p.pauseTime with _ | pt <;> simp [vElapsed, hpt]
  linarith

/-- get_elapsed_time with no live voice position never returns a negative
value. -/
theorem getElapsedTime_nonneg (p : GuildPlayer) (t : ℚ) :
    0 ≤ (getElapsedTime p none t).1 := by
  rcases hst : p.startTime with _ | st
  · simp [getElapsedTime, hst]
  · simp only [getElapsedTime, hst]
    exact le_max_left 0 _

/-- pause and resume keep the clock wellformed. -/
theorem clockGood_applyClockOp {p : GuildPlayer} (hg : ClockGood p)
    (op : ClockOp) (u : ℚ) : ClockGood (applyClockOp p op u) := by
  obtain ⟨h1, h2, h3⟩ := hg
  cases op
  · by_cases hb : p.isPaused
    · have hid : applyClockOp p ClockOp.pauseOp u = p := by
        simp [applyClockOp, pause, hb]
      rw [hid]; exact ⟨h1, h2, h3⟩
    · simp [applyClockOp, pause, hb, ClockGood, h1, h2]
  · rcases hpt : p.pauseTime with _ | pt
    · cases hb : p.isPaused
      · have hid : applyClockOp p ClockOp.resumeOp u = p := by
          simp [applyClockOp, resume, hpt, hb]
        rw [hid]; exact ⟨h1, h2, h3⟩
      · rw [hb, hpt] at h3; simp at h3
    · cases hb : p.isPaused
      · rw [hb, hpt] at h3; simp at h3
      · simp [applyClockOp, resume, hpt, hb, ClockGood, h1, h2]

/-- pause and resume do not change the pause-aware estimate read at the
instant of the call. -/
theorem vElapsed_applyClockOp {p : GuildPlayer} (hg : ClockGood p)
    (op : ClockOp) (u : ℚ) :
    vElapsed (applyClockOp p op u) u = vElapsed p u := by
  obtain ⟨h1, h2, h3⟩ := hg
  cases op
  · by_cases hb : p.isPaused
    · simp [applyClockOp, pause, hb]
    · have hpt : p.pauseTime = none := by
        rcases hpt : p.pauseTime with _ | pt
        · rfl
        · rw [h3, hpt] at hb; simp at hb
      simp [applyClockOp, pause, hb, vElapsed, hpt]
  · rcases hpt : p.pauseTime with _ | pt
    · cases hb : p.isPaused
      · simp [applyClockOp, resume, hpt, hb, vElapsed]
      · rw [hb, hpt] at h3; simp at h3
    · cases hb : p.isPaused
      · rw [hb, hpt] at h3; simp at h3
      · simp [applyClockOp, resume, hpt, hb, vElapsed]
        ring

/-- The elapsed value at a query instant is bounded below by the floored
estimate carried into the remaining trace. -/
theorem elapsedAt_lower (tr : List (ℚ × ClockOp)) :
    ∀ (p : GuildPlayer) (u t : ℚ), ClockGood p → ValidTrace u tr → u ≤ t →
      max 0 (vElapsed p u) ≤ elapsedAt p tr t := by
  induction tr with
  | nil =>
    intro p u t hg _ hut
    rw [elapsedAt, clockGood_elapsed hg t]
    exact max_le_max le_rfl (vElapsed_mono p hut)
  | cons e rest ih =>
    rcases e with ⟨v, op⟩
    intro p u t hg hv hut
    rcases hv with _ | ⟨huv, hv'⟩
    rw [elapsedAt]
    by_cases hvt : v ≤ t
    · rw [if_pos hvt]
      have hg' := clockGood_applyClockOp hg op v
      have h1 : max 0 (vElapsed p u) ≤ max 0 (vElapsed (applyClockOp p op v) v) := by
        rw [vElapsed_applyClockOp hg op v]
        exact max_le_max le_rfl (vElapsed_mono p huv)
      exact h1.trans (ih _ v t hg' hv' hvt)
    · rw [if_neg hvt, clockGood_elapsed hg t]
      exact max_le_max le_rfl (vElapsed_mono p hut)

/-- Elapsed time observed through a valid pause/resume trace is monotone
in the query time. -/
theorem elapsedAt_mono (tr : List (ℚ × ClockOp)) :
    ∀ (p : GuildPlayer) (u t1 t2 : ℚ), ClockGood p → ValidTrace u tr →
      t1 ≤ t2 → elapsedAt p tr t1 ≤ elapsedAt p tr t2 := by
  induction tr with
  | nil =>
    intro p u t1 t2 hg _ h12
    rw [elapsedAt, elapsedAt, clockGood_elapsed hg t1, clockGood_elapsed hg t2]
    exact max_le_max le_rfl (vElapsed_mono p h12)
  | cons e rest ih =>
    rcases e with ⟨v, op⟩
    intro p u t1 t2 hg hv h12
    rcases hv with _ | ⟨huv, hv'⟩
    rw [elapsedAt, elapsedAt]
    by_cases h1 : v ≤ t1
    · rw [if_pos h1, if_pos (h1.trans h12)]
      exact ih _ v t1 t2 (clockGood_applyClockOp hg op v) hv' h12
    · by_cases h2 : v ≤ t2
      · rw [if_neg h1, if_pos h2, clockGood_elapsed hg t1]
        have ha : max 0 (vElapsed p t1) ≤ max 0 (vElapsed (applyClockOp p op v) v) := by
          rw [vElapsed_applyClockOp hg op v]
          exact max_le_max le_rfl (vElapsed_mono p (le_of_not_le h1))
        exact ha.trans
          (elapsedAt_lower rest _ v t2 (clockGood_applyClockOp hg op v) hv' h2)
      · rw [if_neg h1, if_neg h2, clockGood_elapsed hg t1, clockGood_elapsed hg t2]
        exact max_le_max le_rfl (vElapsed_mono p h12)

/-- Elapsed time observed through any trace is nonnegative. -/
theorem elapsedAt_nonneg (tr : List (ℚ × ClockOp)) :
    ∀ (p : GuildPlayer) (t : ℚ), 0 ≤ elapsedAt p tr t := by
  induction tr with
  | nil => intro p t; rw [elapsedAt]; exact getElapsedTime_nonneg p t
  | cons e rest ih =>
    rcases e with ⟨v, op⟩
    intro p t
    rw [elapsedAt]
    by_cases hvt : v ≤ t
    · rw [if_pos hvt]; exact ih _ t
    · rw [if_neg hvt]; exact getElapsedTime_nonneg p t

/-- A freshly loaded track has a wellformed clock. -/
theorem clockGood_playTrackStart (p : GuildPlayer) (url : String) (t : ℚ) :
    ClockGood (playTrackStart p url t) := by
  simp [ClockGood, playTrackStart]

/-- C5: for every sequence of pause/resume calls on a started clock and
every pair of query times t1 <= t2, the elapsed time observed at t1 is at
most the one observed at t2, and elapsed time is never negative. -/
theorem c5_elapsed_monotone (p0 : GuildPlayer) (url : String) (t0 : ℚ)
    (tr : List (ℚ × ClockOp)) (t1 t2 : ℚ)
    (hv : ValidTrace t0 tr) (_h01 : t0 ≤ t1) (h12 : t1 ≤ t2) :
    elapsedAt (playTrackStart p0 url t0) tr t1
      ≤ elapsedAt (playTrackStart p0 url t0) tr t2
    ∧ 0 ≤ elapsedAt (playTrackStart p0 url t0) tr t1 :=
  ⟨elapsedAt_mono tr _ t0 t1 t2 (clockGood_playTrackStart p0 url t0) hv h12,
   elapsedAt_nonneg tr _ t1⟩

/-- Witness for C5 at a concrete trace: start at 0, pause at 1, resume at
3, queried at 2 and 10. -/
theorem c5_witness :
    elapsedAt (playTrackStart initPlayer "a" 0)
        [((1 : ℚ), ClockOp.pauseOp), ((3 : ℚ), ClockOp.resumeOp)] 2
      ≤ elapsedAt (playTrackStart initPlayer "a" 0)
        [((1 : ℚ), ClockOp.pauseOp), ((3 : ℚ), ClockOp.resumeOp)] 10
    ∧ 0 ≤ elapsedAt (playTrackStart initPlayer "a" 0)
        [((1 : ℚ), ClockOp.pauseOp), ((3 : ℚ), ClockOp.resumeOp)] 2 :=
  c5_elapsed_monotone initPlayer "a" 0 _ 2 10
    (ValidTrace.cons (by norm_num)
      (ValidTrace.cons (by norm_num) (ValidTrace.nil 3)))
    (by norm_num) (by norm_num)

/-- C4: when a track was playing, play_next with loop mode Track leaves
the net queue unchanged and reloads the same track (reinsert at head then
pop); with loop mode Queue it moves the finished track to the tail and
pops the old head; with loop mode Off the queue is untouched before the
pop; in every case the popped head (if any) becomes the loaded current
track, else no track remains current. -/
theorem c4_advance_loop (p : GuildPlayer) (t : ℚ) (cur : String)
    (hc : p.currentTrackUrl = some cur) :
    (p.loopMode = 1 →
      (playNext p t).currentTrackUrl = some cur ∧ (playNext p t).queue = p.queue)
    ∧ (p.loopMode = 2 →
        (p.queue = [] →
          (playNext p t).currentTrackUrl = some cur ∧ (playNext p t).queue = [])
        ∧ ∀ b rest, p.queue = b :: rest →
            (playNext p t).currentTrackUrl = some b
            ∧ (playNext p t).queue = rest ++ [cur])
    ∧ (p.loopMode = 0 →
        (p.queue = [] →
          (playNext p t).currentTrackUrl = none ∧ (playNext p t).queue = [])
        ∧ ∀ b rest, p.queue = b :: rest →
            (playNext p t).currentTrackUrl = some b
            ∧ (playNext p t).queue = rest) := by
  refine ⟨fun h1 => ?_, fun h2 => ⟨fun hq => ?_, fun b rest hq => ?_⟩,
    fun h0 => ⟨fun hq => ?_, fun b rest hq => ?_⟩⟩
  · have hr : loopReinsert p = cur :: p.queue := by simp [loopReinsert, hc, h1]
    simp [playNext, hr, playTrackStart]
  · have hr : loopReinsert p = [cur] := by simp [loopReinsert, hc, h2, hq]
    simp [playNext, hr, playTrackStart]
  · have hr : loopReinsert p = b :: (rest ++ [cur]) := by
      simp [loopReinsert, hc, h2, hq]
    simp [playNext, hr, playTrackStart]
  · have hr : loopReinsert p = [] := by simp [loopReinsert, hc, h0, hq]
    simp [playNext, hr]
  · have hr : loopReinsert p = b :: rest := by simp [loopReinsert, hc, h0, hq]
    simp [playNext, hr, playTrackStart]

/-- Witness for C4: loop off, current A, queue [B]: B is popped and
loaded. -/
theorem c4_witness :
    (playNext exAdvance 0).currentTrackUrl = some "B"
    ∧ (playNext exAdvance 0).queue = [] :=
  ((c4_advance_loop exAdvance 0 "A" rfl).2.2 rfl).2 "B" [] rfl

/-- C1: play_next carries no generation guard.  Invoking it twice for the
same finished track (current A, queue [B, C], loop off) performs two full
advances: the first loads B leaving [C], the second is not ignored and
loads C leaving an empty queue, so the double call is observably
different from a single advance. -/
theorem c1_double_advance :
    (playNext exDouble 0).currentTrackUrl = some "B"
    ∧ (playNext exDouble 0).queue = ["C"]
    ∧ (playNext (playNext exDouble 0) 0).currentTrackUrl = some "C"
    ∧ (playNext (playNext exDouble 0) 0).queue = []
    ∧ playNext (playNext exDouble 0) 0 ≠ playNext exDouble 0 := by
  refine ⟨?_, ?_, ?_, ?_, ?_⟩ <;> decide

/-- C3 counterexample: a play request arriving while the session is
Paused (voice client present but not playing) does not enqueue: the code
starts the new track, replacing the paused current track A with B and
leaving the queue empty. -/
theorem c3_preempt_paused :
    (playCommandStep exPaused true false "B" 2).currentTrackUrl = some "B"
    ∧ (playCommandStep exPaused true false "B" 2).currentTrackUrl ≠ some "A"
    ∧ (playCommandStep exPaused true false "B" 2).queue = [] := by
  refine ⟨?_, ?_, ?_⟩ <;> decide

/-- C3 amended: a play request is appended to the queue tail with the
current track untouched exactly when the voice client exists and is
actively playing; in every other case (no voice client, idle, paused or
still loading) the requested track immediately becomes the loaded current
track and the queue is left as it was. -/
theorem c3_route (p : GuildPlayer) (hv ip : Bool) (url : String) (t : ℚ) :
    (playCommandStep p hv ip url t).currentTrackUrl
      = (if hv && ip then p.currentTrackUrl else some url)
    ∧ (playCommandStep p hv ip url t).queue
      = (if hv && ip then p.queue ++ [url] else p.queue) := by
  cases hv <;> cases ip <;> simp [playCommandStep, playTrackStart]

/-- C6: with fewer than two history entries, the previous button leaves
the whole player state unchanged and reports the failure message. -/
theorem c6_previous_short_history (p : GuildPlayer) (v : Bool)
    (h : p.playbackHistory.length < 2) :
    previousButton p v = (p, "❌ No previous track in history.") := by
  rcases hl : p.playbackHistory with _ | ⟨a, _ | ⟨b, l⟩⟩
  · simp [previousButton, hl]
  · simp [previousButton, hl]
  · rw [hl] at h
    simp only [List.length_cons] at h
    omega

/-- Witness for C6 at a single-entry history. -/
theorem c6_witness :
    previousButton exPrev true = (exPrev, "❌ No previous track in history.") :=
  c6_previous_short_history exPrev true (by decide)

/-- C7: stopping a session that has a voice connection, a non-empty queue,
a current track and a live panel empties the registry entry for the
guild: the lookup fails afterwards, the panel deletion was performed, the
reply confirms the stop, and any session observed for the guild after the
stop is a fresh one with an empty queue and no current track. -/
theorem c7_stop (reg : Registry) (gid : Nat) (p : GuildPlayer)
    (hp : lookupPlayer reg gid = some p) (_hq : p.queue ≠ [])
    (_hc : p.currentTrackUrl.isSome = true) (hm : p.playerMessage.isSome = true) :
    lookupPlayer (stopButton reg gid true).1 gid = none
    ∧ (stopButton reg gid true).2.1 = true
    ∧ (getPlayer (stopButton reg gid true).1 gid).1.queue = []
    ∧ (getPlayer (stopButton reg gid true).1 gid).1.currentTrackUrl = none
    ∧ (stopButton reg gid true).2.2 = "🛑 Playback stopped and queue cleared." := by
  have hpr : getPlayer reg gid = (p, reg) := by simp [getPlayer, hp]
  have h1 : (stopButton reg gid true).1
      = removePlayer (setPlayer reg gid { p with queue := [] }) gid := by
    simp [stopButton, hpr]
  have h2 : (stopButton reg gid true).2.1 = p.playerMessage.isSome := by
    simp [stopButton, hpr]
  have h3 : (stopButton reg gid true).2.2
      = "🛑 Playback stopped and queue cleared." := by
    simp [stopButton, hpr]
  have hnone : lookupPlayer (stopButton reg gid true).1 gid = none := by
    rw [h1]; exact lookupPlayer_removePlayer _ _
  refine ⟨hnone, by rw [h2]; exact hm, ?_, ?_, h3⟩
  · rw [getPlayer_of_lookup_none hnone]; rfl
  · rw [getPlayer_of_lookup_none hnone]; rfl

/-- Witness for C7 on a one-guild registry with queue [A, B], current C
and a panel message. -/
theorem c7_witness :
    lookupPlayer (stopButton exStopReg 1 true).1 1 = none
    ∧ (stopButton exStopReg 1 true).2.1 = true
    ∧ (getPlayer (stopButton exStopReg 1 true).1 1).1.queue = []
    ∧ (getPlayer (stopButton exStopReg 1 true).1 1).1.currentTrackUrl = none
    ∧ (stopButton exStopReg 1 true).2.2
        = "🛑 Playback stopped and queue cleared." :=
  c7_stop exStopReg 1 exStopPlayer (by decide) (by decide) (by decide) (by decide)

/-- Every reachable player state has a duplicate-free playback history. -/
theorem reachable_nodup_history (p : GuildPlayer) (h : Reachable p) :
    p.playbackHistory.Nodup := by
  induction h with
  | init => simp [initPlayer]
  | pauseStep t _ ih => rw [pause_history]; exact ih
  | resumeStep t _ ih => rw [resume_history]; exact ih
  | loopStep _ ih => exact ih
  | advanceStep t _ ih => rw [playNext_history]; exact ih
  | loadStep url t _ ih => exact ih
  | historyStep url _ ih =>
    unfold appendHistory
    split
    · exact ih
    · rename_i hmem
      simpa using List.Nodup.concat hmem ih
  | prevStep v _ ih => exact List.Nodup.sublist (previousButton_history_sublist _ v) ih
  | playCmdStep hv ip url t _ ih => rw [playCommandStep_history]; exact ih
  | stopClearStep _ ih => exact ih
  | elapsedStep livePos t _ ih => rw [getElapsedTime_history]; exact ih

/-- Every reachable player state has loop mode strictly below 3. -/
theorem reachable_loopMode_lt (p : GuildPlayer) (h : Reachable p) :
    p.loopMode < 3 := by
  induction h with
  | init => simp [initPlayer]
  | pauseStep t _ ih => rw [pause_loopMode]; exact ih
  | resumeStep t _ ih => rw [resume_loopMode]; exact ih
  | loopStep _ ih => exact Nat.mod_lt _ (by norm_num)
  | advanceStep t _ ih => rw [playNext_loopMode]; exact ih
  | loadStep url t _ ih => exact ih
  | historyStep url _ ih => rw [appendHistory_loopMode]; exact ih
  | prevStep v _ ih => rw [previousButton_loopMode]; exact ih
  | playCmdStep hv ip url t _ ih => rw [playCommandStep_loopMode]; exact ih
  | stopClearStep _ ih => exact ih
  | elapsedStep livePos t _ ih => rw [getElapsedTime_loopMode]; exact ih

/-- C9: in every reachable state the playback history holds no duplicate
track references, and appending a url already present anywhere in the
history is a no-op, so re-playing a previously played track leaves the
history unchanged. -/
theorem c9_history_nodup (p : GuildPlayer) (hr : Reachable p) (url : String)
    (hu : url ∈ p.playbackHistory) :
    p.playbackHistory.Nodup ∧ appendHistory p url = p :=
  ⟨reachable_nodup_history p hr, by unfold appendHistory; rw [if_pos hu]⟩

/-- Witness for C9 after one successful play of track a. -/
theorem c9_witness :
    (appendHistory initPlayer "a").playbackHistory.Nodup
    ∧ appendHistory (appendHistory initPlayer "a") "a"
        = appendHistory initPlayer "a" :=
  c9_history_nodup (appendHistory initPlayer "a")
    (Reachable.historyStep "a" Reachable.init) "a" (by decide)

/-- C10: in every reachable state the loop mode is one of 0 (Off),
1 (Track) or 2 (Queue): it starts at 0 and the only operation that
changes it is the loop button's increment modulo 3. -/
theorem c10_loop_mode (p : GuildPlayer) (hr : Reachable p) :
    p.loopMode = 0 ∨ p.loopMode = 1 ∨ p.loopMode = 2 := by
  have h := reachable_loopMode_lt p hr
  omega

/-- Witness for C10 at the freshly created player. -/
theorem c10_witness :
    initPlayer.loopMode = 0 ∨ initPlayer.loopMode = 1 ∨ initPlayer.loopMode = 2 :=
  c10_loop_mode initPlayer Reachable.init

/-- On the pure-clock path (no live voice position), get_elapsed_time
agrees with the claim's description, provided the paused flag is
consistent with pause_time and the recorded sample is nonnegative. -/
theorem getElapsed_fallback_spec (p : GuildPlayer) (now : ℚ)
    (h1 : p.startTime.isSome = true) (h2 : p.isPaused = p.pauseTime.isSome)
    (h3 : 0 ≤ p.lastPosition) :
    (getElapsedTime p none now).1 = specC2Elapsed p now := by
  rcases hst : p.startTime with _ | st
  · rw [hst] at h1; simp at h1
  · rcases hpt : p.pauseTime with _ | pt
    · have hb : p.isPaused = false := by rw [h2, hpt]; rfl
      rcases hput : p.positionUpdateTime with _ | put
      · simp [getElapsedTime, specC2Elapsed, hst, hpt, hb, hput]
      · by_cases hlt : now - put < 5
        · simp only [getElapsedTime, specC2Elapsed, hst, hpt, hb, hput,
            if_pos hlt, Option.getD_some, Option.getD_none]
          exact max_eq_right (le_trans h3 (le_max_right _ _))
        · simp [getElapsedTime, specC2Elapsed, hst, hpt, hb, hput, hlt]
    · have hb : p.isPaused = true := by rw [h2, hpt]; rfl
      rcases hput : p.positionUpdateTime with _ | put
      · simp [getElapsedTime, specC2Elapsed, hst, hpt, hb, hput]
      · by_cases hlt : now - put < 5
        · simp only [getElapsedTime, specC2Elapsed, hst, hpt, hb, hput,
            if_pos hlt, Option.getD_some, Option.getD_none]
          exact max_eq_right (le_trans h3 (le_max_right _ _))
        · simp [getElapsedTime, specC2Elapsed, hst, hpt, hb, hput, hlt]

/-- C2 counterexample: with a started clock and no recorded sample, a
live playing voice client reporting position 2 at time 100 makes
get_elapsed_time return 2, while the claim's description (the larger of
the time-based estimate and any fresh sample, otherwise the pause-aware
estimate) yields 100: the live position is returned directly and may
move elapsed time backward. -/
theorem c2_counterexample :
    (getElapsedTime exClock (some 2) 100).1 = 2
    ∧ specC2Elapsed exClock 100 = 100
    ∧ (getElapsedTime exClock (some 2) 100).1 ≠ specC2Elapsed exClock 100 := by
  have hA : (getElapsedTime exClock (some 2) 100).1 = 2 := by decide
  have hB : specC2Elapsed exClock 100 = 100 := by
    norm_num [specC2Elapsed, exClock, initPlayer]
  refine ⟨hA, hB, ?_⟩
  rw [hA, hB]
  norm_num

/-- C2 amended: whenever the voice client supplies a positive live
position, get_elapsed_time returns it directly; in every other case
(startedAt set, paused flag consistent, nonnegative recorded sample) it
behaves exactly as the claim describes: a sample fresher than 5 seconds
yields the larger of the time-based estimate and the sample, otherwise
the pause-aware wall-clock estimate floored at 0. -/
theorem c2_elapsed_amended (p : GuildPlayer) (livePos : Option ℚ) (now : ℚ)
    (h1 : p.startTime.isSome = true) (h2 : p.isPaused = p.pauseTime.isSome)
    (h3 : 0 ≤ p.lastPosition) :
    (getElapsedTime p livePos now).1 =
      (match livePos with
       | some q => if 0 < q then q else specC2Elapsed p now
       | none => specC2Elapsed p now) := by
  rcases livePos with _ | q
  · exact getElapsed_fallback_spec p now h1 h2 h3
  · by_cases hq : 0 < q
    · rcases hst : p.startTime with _ | st
      · rw [hst] at h1; simp at h1
      · simp [getElapsedTime, hst, hq]
    · have heq : getElapsedTime p (some q) now = getElapsedTime p none now := by
        rcases hst : p.startTime with _ | st <;> simp [getElapsedTime, hst, hq]
      rw [heq]
      simpa [hq] using getElapsed_fallback_spec p now h1 h2 h3

/-- Witness for C2 (amended) on a started clock queried at 10. -/
theorem c2_witness :
    (getElapsedTime exClock none 10).1 = specC2Elapsed exClock 10 :=
  c2_elapsed_amended exClock none 10 (by decide) (by decide) (by decide)

/-- C8 counterexample: an initialized handler whose primary message was
never created (both references absent); with every external call
succeeding, send routes to interaction.followup.send and returns with no
primary message adopted, contradicting the claimed update-or-create
behaviour (a followup is sent instead of creating and adopting a channel
message). -/
theorem c8_followup_not_adopted :
    exHandlerNoPrimary.message = none
    ∧ exHandlerNoPrimary.thinkingMessage = none
    ∧ exHandlerNoPrimary.initialized = true
    ∧ (send exHandlerNoPrimary exWorldAllOk "hello").message = none := by
  refine ⟨rfl, rfl, rfl, ?_⟩
  rfl

/-- C8 amended: send never lets an exception escape to its caller; it
edits the thinking or primary message in place when one is present, on a
NotFound edit failure creates a new channel message and adopts it as
primary, creates and adopts a first message when not initialized, but on
an initialized handler with no primary it sends a followup and adopts
nothing. -/
theorem c8_send_amended (h : MessageHandler) (w : SendWorld) (c : String) :
    (sendExcept h w c).isOk = true
    ∧ (∀ t, h.thinkingMessage = some t → w.editThinking = CallOutcome.ok →
        (send h w c).message = some t)
    ∧ (∀ m, h.thinkingMessage = none → h.message = some m →
        w.editMessage = CallOutcome.ok → (send h w c).message = some m)
    ∧ (∀ m i, h.thinkingMessage = none → h.message = some m →
        w.editMessage = CallOutcome.notFound → w.sendAfterEditNF = some i →
        (send h w c).message = some i)
    ∧ (∀ i, h.thinkingMessage = none → h.message = none → h.initialized = false →
        w.sendInitial = some i → (send h w c).message = some i)
    ∧ (h.thinkingMessage = none → h.message = none → h.initialized = true →
        w.followup = CallOutcome.ok → (send h w c).message = none) := by
  refine ⟨?_, ?_, ?_, ?_, ?_, ?_⟩
  · rcases hsc : sendCore h w c with h1 | h1 <;>
      simp [sendExcept, hsc, Except.isOk, Except.toBool]
  · intro t ht hw
    simp [send, sendExcept, sendCore, ht, hw, logMsg]
  · intro m ht hm hw
    simp [send, sendExcept, sendCore, sendAfterThinking, ht, hm, hw, logMsg]
  · intro m i ht hm hw hs
    simp [send, sendExcept, sendCore, sendAfterThinking, ht, hm, hw, hs, logMsg]
  · intro i ht hm hi hs
    simp [send, sendExcept, sendCore, sendAfterThinking, ht, hm, hi, hs, logMsg]
  · intro ht hm hi hw
    simp [send, sendExcept, sendCore, sendAfterThinking, ht, hm, hi, hw, logMsg]

/-- Witness for C3 (amended) on a concrete actively-playing session. -/
theorem c3_witness :
    (playCommandStep exPrev true true "u" 0).currentTrackUrl = exPrev.currentTrackUrl
    ∧ (playCommandStep exPrev true true "u" 0).queue = exPrev.queue ++ ["u"] :=
  c3_route exPrev true true "u" 0

/-- Witness for C8 (amended) on a concrete handler and world. -/
theorem c8_witness :
    (sendExcept exHandlerNoPrimary exWorldAllOk "x").isOk = true :=
  (c8_send_amended exHandlerNoPrimary exWorldAllOk "x").1
